import Mathlib

/-!
Verification of the candidate-assembly core of the trait/capability solver
(`compiler/rustc_trait_selection/src/solve/assembly/mod.rs`).

The data model and every assembly pass below are translated directly from the
source file.  External collaborators (the type interner, the declaration
database, the query engine's canonicalization machinery, per-goal-kind
`consider_*` implementations) are not part of the source fragment; they are
represented either as oracle fields of a `World` record or, where the
specification fixes their behaviour, as definitions marked
`Modelled from the spec:`.
-/

namespace SolveAssembly

/-- Cause of a `Maybe` certainty: genuine ambiguity or overflow of the
recursion limit. -/
inductive MaybeCause where
  | ambiguity
  | overflow
deriving DecidableEq, Repr

/-- `Certainty`: a goal holds (`yes`) or is not yet decidable (`maybe`). -/
inductive Certainty where
  | yes
  | maybe (cause : MaybeCause)
deriving DecidableEq, Repr

/-- A canonical response: a certainty plus opaque residual constraints
(region constraints / external obligations), compared atomically by the
merge engine. -/
structure CanonicalResponse where
  certainty : Certainty
  constraints : List Nat
deriving DecidableEq, Repr

/-- `QueryResult` = `Result<CanonicalResponse, NoSolution>`. -/
inductive QueryResult where
  | ok (response : CanonicalResponse)
  | noSolution
deriving DecidableEq, Repr

/-- `CandidateSource`: provenance of a candidate (user impl, builtin rule,
n-th param-env assumption, alias bound). -/
inductive CandidateSource where
  | impl (defId : Nat)
  | builtinImpl
  | paramEnv (idx : Nat)
  | aliasBound
deriving DecidableEq, Repr

/-- A candidate: a possible way to prove a goal. -/
structure Candidate where
  source : CandidateSource
  result : CanonicalResponse
deriving DecidableEq, Repr

/-- Alias kinds: `Projection`, `Inherent`, `Opaque` (spelled `opaq`), `Weak`. -/
inductive AliasKind where
  | projection
  | inherent
  | opaq
  | weak
deriving DecidableEq, Repr

/-- Inference variable kinds (`ty::InferTy`). -/
inductive InferKind where
  | tyVar
  | intVar
  | floatVar
  | freshTy
  | freshIntTy
  | freshFloatTy
deriving DecidableEq, Repr

/-- The type model (`ty::TyKind`), restricted to the structure the assembly
code inspects.  An alias type carries its defining item, its owning trait and
the self type of its owning trait reference (`alias_ty.trait_ref(tcx)`). -/
inductive Ty where
  | bool
  | char
  | int
  | uint
  | float
  | adt (defId : Nat)
  | foreign
  | str
  | array
  | slice
  | rawPtr
  | ref
  | fnDef
  | fnPtr
  | dynamic (boundIds : List Nat)
  | closure
  | generator
  | generatorWitness
  | generatorWitnessMIR
  | never
  | tuple (arity : Nat)
  | param (idx : Nat)
  | placeholder
  | infer (kind : InferKind)
  | alias (kind : AliasKind) (defId : Nat) (traitDefId : Nat) (traitSelfTy : Ty)
  | bound
  | error
deriving DecidableEq, Repr

/-- `Ty::is_ty_var`. -/
def Ty.is_ty_var : Ty → Bool
  | .infer .tyVar => true
  | _ => false

/-- A predicate from a param env; `as_clause` succeeds exactly on clause-like
predicates.  Clauses themselves are opaque tokens matched by the external
unifier. -/
inductive Predicate where
  | clause (id : Nat)
  | otherPred
deriving DecidableEq, Repr

/-- `Predicate::as_clause`. -/
def Predicate.as_clause : Predicate → Option Nat
  | .clause id => some id
  | .otherPred => none

/-- `Reveal` mode of a param env. -/
inductive Reveal where
  | userFacing
  | all
deriving DecidableEq, Repr

/-- A param env: positional caller bounds plus the reveal mode. -/
structure ParamEnv where
  callerBounds : List Predicate
  reveal : Reveal
deriving DecidableEq, Repr

/-- A goal: assumption context, the capability (trait) id, and the subject
(self) type.  `with_self_ty` is structure update on `selfTy`. -/
structure Goal where
  paramEnv : ParamEnv
  traitDefId : Nat
  selfTy : Ty
deriving DecidableEq, Repr

/-- `SolverMode`: ordinary checking vs. coherence checking. -/
inductive SolverMode where
  | normal
  | coherence
deriving DecidableEq, Repr

/-- `ty::ClosureKind` for the `Fn`-family dispatch. -/
inductive ClosureKind where
  | fnOnce
  | fnMut
  | fnPlain
deriving DecidableEq, Repr

/-- The well-known lang items consulted by the builtin dispatcher. -/
structure LangItems where
  sized : Option Nat
  copy : Option Nat
  clone : Option Nat
  pointerLike : Option Nat
  fnPtrTrait : Option Nat
  tuple : Option Nat
  pointee : Option Nat
  future : Option Nat
  gen : Option Nat
  unsize : Option Nat
  discriminantKind : Option Nat
  destruct : Option Nat
  transmute : Option Nat

/-- External collaborators of the assembly core, supplied per query:
the declaration database, the lang-item table, the per-goal-kind
`consider_*` implementations, the unifier used by
`probe_and_match_goal_against_assumption`, the item-bounds database, the
normalization evaluator and the coherence overlap oracle. -/
structure World where
  langItems : LangItems
  traitIsAuto : Nat → Bool
  traitIsAlias : Nat → Bool
  fnTraitKind : Nat → Option ClosureKind
  relevantImpls : Goal → List Nat
  considerImpl : Goal → Nat → QueryResult
  considerAutoTrait : Goal → QueryResult
  considerTraitAlias : Goal → QueryResult
  considerSized : Goal → QueryResult
  considerCopyClone : Goal → QueryResult
  considerPointerLike : Goal → QueryResult
  considerFnPtrTrait : Goal → QueryResult
  considerFnTrait : Goal → ClosureKind → QueryResult
  considerTuple : Goal → QueryResult
  considerPointee : Goal → QueryResult
  considerFuture : Goal → QueryResult
  considerGenerator : Goal → QueryResult
  considerUnsize : Goal → QueryResult
  considerDynUpcast : Goal → List CanonicalResponse
  considerDiscriminantKind : Goal → QueryResult
  considerDestruct : Goal → QueryResult
  considerTransmute : Goal → QueryResult
  matchesGoal : Goal → Nat → Bool
  itemBounds : Nat → Ty → List Predicate
  normalizeSelfTy : Goal → Option Ty
  objectBoundMatches : Goal → List Nat → List QueryResult
  traitRefKnowable : Nat → Ty → Bool

/-- The evaluation context: collaborators, solver mode and the recursion
depth / configured limit used by the overflow handler. -/
structure EvalCtxt where
  world : World
  solverMode : SolverMode
  depth : Nat
  limit : Nat

/-- Modelled from the spec: the query engine's
`evaluate_added_goals_and_make_canonical_response(certainty) -> CanonicalResponse`
(external collaborator, not in this module).  Per the spec the produced
response carries exactly the certainty handed to it; in this model it always
succeeds and carries no residual constraints. -/
def evaluate_added_goals_and_make_canonical_response (_ctx : EvalCtxt) (certainty : Certainty) :
    QueryResult :=
  .ok { certainty := certainty, constraints := [] }

/-- Modelled from the spec: `try_merge_responses(list<CanonicalResponse>) ->
Option<CanonicalResponse>` (query engine collaborator, not in this module).
The complete, sound unify-merge: if every response is mutually consistent it
produces the one combined response, symmetrically and order-independently;
an empty list produces no response. -/
def try_merge_responses (responses : List CanonicalResponse) : Option CanonicalResponse :=
  match responses with
  | [] => none
  | r :: rest => if rest.all (fun x => x = r) then some r else none

/-- Modelled from the spec: `flounder` (query engine collaborator, not in
this module) — declare the goal ambiguous; the caller treats the outcome as
`Certainty::Maybe(Ambiguity)`. -/
def flounder (_responses : List CanonicalResponse) : QueryResult :=
  .ok { certainty := .maybe .ambiguity, constraints := [] }

/-- The filter used by `merge_candidates` when prioritizing param-env
candidates: `matches!(c.source, ParamEnv(_) | AliasBound)`. -/
def CandidateSource.is_param_env_or_alias_bound : CandidateSource → Bool
  | .paramEnv _ => true
  | .aliasBound => true
  | _ => false

/-- `EvalCtxt::merge_candidates`: first try merging all candidates (complete
and fully sound); if that fails, outside coherence retry with only the
param-env / alias-bound candidates; otherwise flounder. -/
def merge_candidates (ctx : EvalCtxt) (candidates : List Candidate) : QueryResult :=
  let responses := candidates.map (fun c => c.result)
  match try_merge_responses responses with
  | some result => .ok result
  | none =>
    match ctx.solverMode with
    | .coherence => flounder responses
    | .normal =>
      let param_env_responses :=
        (candidates.filter (fun c => c.source.is_param_env_or_alias_bound)).map
          (fun c => c.result)
      match try_merge_responses param_env_responses with
      | some result => .ok result
      | none => flounder responses

/-- Modelled from the spec: `probe_and_match_goal_against_assumption` (its
implementations live with the per-goal-kind code outside this module): open a
probe, unify the assumption against the goal's predicate; on success run the
`then` continuation, on failure report `NoSolution`.  `some`/`none` of the
outer `Option` distinguish ordinary results from a fatal internal panic
raised by the continuation. -/
def probe_and_match_goal_against_assumption (ctx : EvalCtxt) (goal : Goal) (assumption : Nat)
    (thenCont : Option QueryResult) : Option QueryResult :=
  if ctx.world.matchesGoal goal assumption then thenCont else some .noSolution

/-- `GoalKind::consider_implied_clause` (default method of the source's
`GoalKind` trait): match the assumption, then add the requirement goals and
produce a `Certainty::Yes` response.  The only call site in this module
passes no requirements, so the requirement list is elided; the modelled
query engine discharges added goals when the canonical response is made. -/
def consider_implied_clause (ctx : EvalCtxt) (goal : Goal) (assumption : Nat) :
    Option QueryResult :=
  probe_and_match_goal_against_assumption ctx goal assumption
    (some (evaluate_added_goals_and_make_canonical_response ctx .yes))

/-- `EvalCtxt::assemble_impl_candidates`: enumerate the declaration
database's structurally relevant impls; each successful
`consider_impl_candidate` yields an `Impl(id)` candidate, failures are
silently skipped. -/
def assemble_impl_candidates (ctx : EvalCtxt) (goal : Goal) : List Candidate :=
  (ctx.world.relevantImpls goal).filterMap fun implDefId =>
    match ctx.world.considerImpl goal implDefId with
    | .ok result => some { source := .impl implDefId, result := result }
    | .noSolution => none

/-- `EvalCtxt::assemble_builtin_impl_candidates`: the fixed dispatch chain
over well-known capabilities; at most one rule fires, except that `Unsize`
additionally contributes one candidate per eligible dyn-upcast. -/
def assemble_builtin_impl_candidates (ctx : EvalCtxt) (goal : Goal) : List Candidate :=
  let lang_items := ctx.world.langItems
  let trait_def_id := goal.traitDefId
  let result :=
    if ctx.world.traitIsAuto trait_def_id then
      ctx.world.considerAutoTrait goal
    else if ctx.world.traitIsAlias trait_def_id then
      ctx.world.considerTraitAlias goal
    else if lang_items.sized = some trait_def_id then
      ctx.world.considerSized goal
    else if lang_items.copy = some trait_def_id ∨ lang_items.clone = some trait_def_id then
      ctx.world.considerCopyClone goal
    else if lang_items.pointerLike = some trait_def_id then
      ctx.world.considerPointerLike goal
    else if lang_items.fnPtrTrait = some trait_def_id then
      ctx.world.considerFnPtrTrait goal
    else
      match ctx.world.fnTraitKind trait_def_id with
      | some kind => ctx.world.considerFnTrait goal kind
      | none =>
        if lang_items.tuple = some trait_def_id then
          ctx.world.considerTuple goal
        else if lang_items.pointee = some trait_def_id then
          ctx.world.considerPointee goal
        else if lang_items.future = some trait_def_id then
          ctx.world.considerFuture goal
        else if lang_items.gen = some trait_def_id then
          ctx.world.considerGenerator goal
        else if lang_items.unsize = some trait_def_id then
          ctx.world.considerUnsize goal
        else if lang_items.discriminantKind = some trait_def_id then
          ctx.world.considerDiscriminantKind goal
        else if lang_items.destruct = some trait_def_id then
          ctx.world.considerDestruct goal
        else if lang_items.transmute = some trait_def_id then
          ctx.world.considerTransmute goal
        else
          .noSolution
  let base :=
    match result with
    | .ok result => [({ source := .builtinImpl, result := result } : Candidate)]
    | .noSolution => []
  let upcasts :=
    if lang_items.unsize = some trait_def_id then
      (ctx.world.considerDynUpcast goal).map fun result =>
        ({ source := .builtinImpl, result := result } : Candidate)
    else []
  base ++ upcasts

/-- `EvalCtxt::assemble_param_env_candidates`: try every caller bound by
position; clause-like bounds that match yield `ParamEnv(i)` candidates. -/
def assemble_param_env_candidates (ctx : EvalCtxt) (goal : Goal) : List Candidate :=
  goal.paramEnv.callerBounds.enum.filterMap fun assumption =>
    match assumption.2.as_clause with
    | none => none
    | some clause =>
      match consider_implied_clause ctx goal clause with
      | some (.ok result) => some { source := .paramEnv assumption.1, result := result }
      | some .noSolution => none
      | none => none

/-- `EvalCtxt::assemble_alias_bound_candidates_for_builtin_impl_default_items`:
the narrow allow-list of "defaulted" builtin capabilities considered during
alias-bound validation — exactly pointee-metadata and discriminant-kind. -/
def assemble_alias_bound_candidates_for_builtin_impl_default_items
    (ctx : EvalCtxt) (goal : Goal) : List Candidate :=
  let lang_items := ctx.world.langItems
  let trait_def_id := goal.traitDefId
  let result :=
    if lang_items.pointee = some trait_def_id then
      ctx.world.considerPointee goal
    else if lang_items.discriminantKind = some trait_def_id then
      ctx.world.considerDiscriminantKind goal
    else
      .noSolution
  match result with
  | .ok result => [{ source := .builtinImpl, result := result }]
  | .noSolution => []

/-- `EvalCtxt::assemble_object_bound_candidates`: applies only to trait-object
subject types; the elaboration of the object's own bounds and the defensive
projection filter live with the external `elaborate` collaborator, modelled
by the `objectBoundMatches` oracle.  Unexpected self types are a fatal
internal error (`none`). -/
def assemble_object_bound_candidates (ctx : EvalCtxt) (goal : Goal) :
    Option (List Candidate) :=
  match goal.selfTy with
  | .dynamic boundIds =>
    some ((ctx.world.objectBoundMatches goal boundIds).filterMap fun r =>
      match r with
      | .ok result => some { source := .builtinImpl, result := result }
      | .noSolution => none)
  | .infer .tyVar | .infer .freshTy | .infer .freshIntTy | .infer .freshFloatTy | .bound =>
    none
  | _ => some []

/-- `EvalCtxt::assemble_coherence_unknowable_candidates`: in `Normal` mode
contribute nothing; in `Coherence` mode, when the overlap oracle reports the
trait reference unknowable, contribute a single ambiguity candidate (a
`NoSolution` from the response maker would be a fatal internal error). -/
def assemble_coherence_unknowable_candidates (ctx : EvalCtxt) (goal : Goal) :
    Option (List Candidate) :=
  match ctx.solverMode with
  | .normal => some []
  | .coherence =>
    if ctx.world.traitRefKnowable goal.traitDefId goal.selfTy then
      some []
    else
      match evaluate_added_goals_and_make_canonical_response ctx (.maybe .ambiguity) with
      | .ok result => some [{ source := .builtinImpl, result := result }]
      | .noSolution => none

mutual

/-- `GoalKind::consider_alias_bound_candidate` (default method of the
source's `GoalKind` trait): match the assumption, then validate that the
alias bound of the goal's self type may be used
(`validate_alias_bound_self_from_param_env`). -/
def consider_alias_bound_candidate (ctx : EvalCtxt) (goal : Goal) (assumption : Nat) :
    Option QueryResult :=
  probe_and_match_goal_against_assumption ctx goal assumption
    (validate_alias_bound_self_from_param_env ctx goal)
termination_by (sizeOf goal.selfTy, 2, 0)

/-- The `for assumption in item_bounds` loop body of
`EvalCtxt::assemble_alias_bound_candidates`: clause-like bounds whose
`consider_alias_bound_candidate` succeeds yield `AliasBound` candidates,
failures are skipped, a panic propagates. -/
def assemble_alias_bound_candidates_loop (ctx : EvalCtxt) (goal : Goal)
    (assumptions : List Predicate) : Option (List Candidate) :=
  match assumptions with
  | [] => some []
  | assumption :: rest =>
    match assumption.as_clause with
    | none => assemble_alias_bound_candidates_loop ctx goal rest
    | some clause =>
      match consider_alias_bound_candidate ctx goal clause with
      | none => none
      | some (.ok result) =>
        (assemble_alias_bound_candidates_loop ctx goal rest).map
          (fun cs => { source := .aliasBound, result := result } :: cs)
      | some .noSolution => assemble_alias_bound_candidates_loop ctx goal rest
termination_by (sizeOf goal.selfTy, 3, assumptions.length)

/-- `EvalCtxt::assemble_alias_bound_candidates`: applies only when the self
type is a projection or opaque alias (inherent associated types and weak
type aliases carry no meaningful item bounds); iterates the item bounds of
the referenced associated item.  Unresolved inference variables and bound
variables are a fatal internal error (`none`). -/
def assemble_alias_bound_candidates (ctx : EvalCtxt) (goal : Goal) :
    Option (List Candidate) :=
  match goal.selfTy with
  | .bool | .char | .int | .uint | .float | .adt _ | .foreign | .str | .array | .slice
  | .rawPtr | .ref | .fnDef | .fnPtr | .dynamic _ | .closure | .generator
  | .generatorWitness | .generatorWitnessMIR | .never | .tuple _ | .param _ | .placeholder
  | .infer .intVar | .infer .floatVar
  | .alias .inherent _ _ _ | .alias .weak _ _ _ | .error => some []
  | .infer .tyVar | .infer .freshTy | .infer .freshIntTy | .infer .freshFloatTy | .bound =>
    none
  | .alias .projection defId _ traitSelfTy
  | .alias .opaq defId _ traitSelfTy =>
    assemble_alias_bound_candidates_loop ctx goal (ctx.world.itemBounds defId traitSelfTy)
termination_by (sizeOf goal.selfTy, 4, 0)

/-- `EvalCtxt::validate_alias_bound_self_from_param_env`: for a projection
self type, prove "self type implements the alias's owning capability" using
only param-env candidates, alias-bound candidates and the defaulted-builtin
allow-list, merged by the merge engine (ambiguous immediately if the owning
trait reference's self type is an unresolved type variable); for an opaque
self type, trust the bound in user-facing reveal mode and fail in
fully-revealing mode.  Any other self type is a fatal internal error. -/
def validate_alias_bound_self_from_param_env (ctx : EvalCtxt) (goal : Goal) :
    Option QueryResult :=
  match h : goal.selfTy with
  | .alias .projection _ traitDefId traitSelfTy =>
    if traitSelfTy.is_ty_var then
      some (evaluate_added_goals_and_make_canonical_response ctx (.maybe .ambiguity))
    else
      let trait_goal : Goal :=
        { paramEnv := goal.paramEnv, traitDefId := traitDefId, selfTy := traitSelfTy }
      let param_env_candidates := assemble_param_env_candidates ctx trait_goal
      match assemble_alias_bound_candidates ctx trait_goal with
      | none => none
      | some alias_bound_candidates =>
        let default_item_candidates :=
          assemble_alias_bound_candidates_for_builtin_impl_default_items ctx trait_goal
        some (merge_candidates ctx
          (param_env_candidates ++ alias_bound_candidates ++ default_item_candidates))
  | .alias .opaq _ _ _ =>
    match goal.paramEnv.reveal with
    | .userFacing => some (evaluate_added_goals_and_make_canonical_response ctx .yes)
    | .all => some .noSolution
  | _ => none
termination_by (sizeOf goal.selfTy, 1, 0)
decreasing_by
  apply Prod.Lex.left
  rw [h]
  simp

end

/-- The overflow branch of the normalization probe: one `BuiltinImpl`
candidate with certainty `Maybe(Overflow)` (an error from the response maker
would make the probe contribute nothing). -/
def overflow_probe_candidates (ctx : EvalCtxt) : Option (List Candidate) :=
  match evaluate_added_goals_and_make_canonical_response ctx (.maybe .overflow) with
  | .ok result => some [{ source := .builtinImpl, result := result }]
  | .noSolution => some []

mutual

/-- `EvalCtxt::assemble_candidates_after_normalizing_self_ty`: for an alias
self type, open a probe and run `with_incremented_depth` (modelled from the
spec: if the recursion depth has reached the configured limit, take the
overflow branch, otherwise run the normalize branch at incremented depth).
The overflow branch produces one `BuiltinImpl` candidate with certainty
`Maybe(Overflow)`; the normalize branch evaluates the
alias-resolves-to-placeholder sub-goal (the `normalizeSelfTy` oracle, `none`
on failure — the probe then contributes no candidates) and recursively
assembles candidates for the goal with its self type replaced by the
normalized type. -/
def assemble_candidates_after_normalizing_self_ty (ctx : EvalCtxt) (goal : Goal) :
    Option (List Candidate) :=
  match goal.selfTy with
  | .alias _ _ _ _ =>
    if ctx.limit ≤ ctx.depth then
      overflow_probe_candidates ctx
    else
      match ctx.world.normalizeSelfTy goal with
      | none => some []
      | some normalized =>
        assemble_and_evaluate_candidates { ctx with depth := ctx.depth + 1 }
          { goal with selfTy := normalized }
  | _ => some []
termination_by (ctx.limit - ctx.depth, 0)

/-- `EvalCtxt::assemble_and_evaluate_candidates`: if the self type is an
unresolved type variable, return a single `BuiltinImpl` candidate with
certainty `Maybe(Ambiguity)` (a `NoSolution` here would be a fatal internal
error, the source unwraps); otherwise run the six structural passes plus the
coherence pass in order, concatenating their candidates. -/
def assemble_and_evaluate_candidates (ctx : EvalCtxt) (goal : Goal) :
    Option (List Candidate) :=
  if goal.selfTy.is_ty_var then
    match evaluate_added_goals_and_make_canonical_response ctx (.maybe .ambiguity) with
    | .ok result => some [{ source := .builtinImpl, result := result }]
    | .noSolution => none
  else
    match assemble_candidates_after_normalizing_self_ty ctx goal with
    | none => none
    | some normalized_candidates =>
      let impl_candidates := assemble_impl_candidates ctx goal
      let builtin_candidates := assemble_builtin_impl_candidates ctx goal
      let param_env_candidates := assemble_param_env_candidates ctx goal
      match assemble_alias_bound_candidates ctx goal with
      | none => none
      | some alias_bound_candidates =>
        match assemble_object_bound_candidates ctx goal with
        | none => none
        | some object_bound_candidates =>
          match assemble_coherence_unknowable_candidates ctx goal with
          | none => none
          | some coherence_candidates =>
            some (normalized_candidates ++ impl_candidates ++ builtin_candidates ++
              param_env_candidates ++ alias_bound_candidates ++ object_bound_candidates ++
              coherence_candidates)
termination_by (ctx.limit - ctx.depth, 1)

end

mutual

/-- Fuel-indexed mirror of `assemble_candidates_after_normalizing_self_ty`:
`fuel` bounds how many re-entrant assembly calls may still be made; the
outer `Option` is `none` exactly when the fuel runs out.  The overflow
branch consumes no fuel. -/
def assemble_candidates_after_normalizing_self_ty_fuel (fuel : Nat) (ctx : EvalCtxt)
    (goal : Goal) : Option (Option (List Candidate)) :=
  match goal.selfTy with
  | .alias _ _ _ _ =>
    if ctx.limit ≤ ctx.depth then
      some (overflow_probe_candidates ctx)
    else
      match fuel with
      | 0 => none
      | fuel' + 1 =>
        match ctx.world.normalizeSelfTy goal with
        | none => some (some [])
        | some normalized =>
          assemble_and_evaluate_candidates_fuel fuel' { ctx with depth := ctx.depth + 1 }
            { goal with selfTy := normalized }
  | _ => some (some [])

/-- Fuel-indexed mirror of `assemble_and_evaluate_candidates`. -/
def assemble_and_evaluate_candidates_fuel (fuel : Nat) (ctx : EvalCtxt) (goal : Goal) :
    Option (Option (List Candidate)) :=
  if goal.selfTy.is_ty_var then
    match evaluate_added_goals_and_make_canonical_response ctx (.maybe .ambiguity) with
    | .ok result => some (some [{ source := .builtinImpl, result := result }])
    | .noSolution => some none
  else
    match assemble_candidates_after_normalizing_self_ty_fuel fuel ctx goal with
    | none => none
    | some none => some none
    | some (some normalized_candidates) =>
      let impl_candidates := assemble_impl_candidates ctx goal
      let builtin_candidates := assemble_builtin_impl_candidates ctx goal
      let param_env_candidates := assemble_param_env_candidates ctx goal
      match assemble_alias_bound_candidates ctx goal with
      | none => some none
      | some alias_bound_candidates =>
        match assemble_object_bound_candidates ctx goal with
        | none => some none
        | some object_bound_candidates =>
          match assemble_coherence_unknowable_candidates ctx goal with
          | none => some none
          | some coherence_candidates =>
            some (some (normalized_candidates ++ impl_candidates ++ builtin_candidates ++
              param_env_candidates ++ alias_bound_candidates ++ object_bound_candidates ++
              coherence_candidates))

end

/-- The self types on which alias-bound enumeration applies: projection or
opaque alias types. -/
def Ty.is_projection_or_opaq_alias : Ty → Bool
  | .alias .projection _ _ _ => true
  | .alias .opaq _ _ _ => true
  | _ => false

/-- The self types that are a fatal internal error inside the structural
enumeration passes (unresolved/fresh inference variables and bound
variables); the orchestrator's precondition excludes them. -/
def Ty.is_unexpected_assembly_self_ty : Ty → Bool
  | .infer .tyVar => true
  | .infer .freshTy => true
  | .infer .freshIntTy => true
  | .infer .freshFloatTy => true
  | .bound => true
  | _ => false

/-- A concrete lang-item table for witnesses. -/
def sample_lang_items : LangItems where
  sized := some 0
  copy := some 1
  clone := some 2
  pointerLike := some 3
  fnPtrTrait := some 4
  tuple := some 5
  pointee := some 6
  future := some 7
  gen := some 8
  unsize := some 9
  discriminantKind := some 10
  destruct := some 11
  transmute := some 12

/-- A concrete collaborator instantiation for witnesses: no impls, no
matching assumptions, no item bounds, normalization fails, everything
knowable. -/
def sample_world : World where
  langItems := sample_lang_items
  traitIsAuto := fun _ => false
  traitIsAlias := fun _ => false
  fnTraitKind := fun _ => none
  relevantImpls := fun _ => []
  considerImpl := fun _ _ => .noSolution
  considerAutoTrait := fun _ => .noSolution
  considerTraitAlias := fun _ => .noSolution
  considerSized := fun _ => .noSolution
  considerCopyClone := fun _ => .noSolution
  considerPointerLike := fun _ => .noSolution
  considerFnPtrTrait := fun _ => .noSolution
  considerFnTrait := fun _ _ => .noSolution
  considerTuple := fun _ => .noSolution
  considerPointee := fun _ => .noSolution
  considerFuture := fun _ => .noSolution
  considerGenerator := fun _ => .noSolution
  considerUnsize := fun _ => .noSolution
  considerDynUpcast := fun _ => []
  considerDiscriminantKind := fun _ => .noSolution
  considerDestruct := fun _ => .noSolution
  considerTransmute := fun _ => .noSolution
  matchesGoal := fun _ _ => false
  itemBounds := fun _ _ => []
  normalizeSelfTy := fun _ => none
  objectBoundMatches := fun _ _ => []
  traitRefKnowable := fun _ _ => true

/-- A concrete evaluation context for witnesses. -/
def sample_ctx (mode : SolverMode) : EvalCtxt where
  world := sample_world
  solverMode := mode
  depth := 0
  limit := 4

/-- A concrete param env for witnesses. -/
def sample_env : ParamEnv where
  callerBounds := []
  reveal := .userFacing

/-- A collaborator instantiation whose unifier matches every assumption and
whose item-bounds database returns one clause, so the alias-bound pass
produces a candidate. -/
def sample_world_matching : World :=
  { sample_world with
      matchesGoal := fun _ _ => true
      itemBounds := fun _ _ => [.clause 0] }

/-! ## Theorems -/

/-- `List.all` is invariant under permutation. -/
theorem perm_all_eq {α : Type} (f : α → Bool) {l l' : List α} (h : l.Perm l') :
    l.all f = l'.all f := by
  induction h with
  | nil => rfl
  | cons a _ ih => simp [List.all_cons, ih]
  | swap x y l =>
    simp only [List.all_cons]
    rw [← Bool.and_assoc, ← Bool.and_assoc, Bool.and_comm (f y) (f x)]
  | trans _ _ ih1 ih2 => exact ih1.trans ih2

/-- The modelled complete unify-merge is invariant under permutation of the
response list. -/
theorem try_merge_responses_perm {l l' : List CanonicalResponse} (h : l.Perm l') :
    try_merge_responses l = try_merge_responses l' := by
  induction h with
  | nil => rfl
  | cons a h _ =>
    simp only [try_merge_responses]
    rw [perm_all_eq (fun x => decide (x = a)) h]
  | swap x y l =>
    by_cases hxy : x = y
    · subst hxy; rfl
    · simp [try_merge_responses, List.all_cons, hxy, Ne.symm hxy]
  | trans _ _ ih1 ih2 => exact ih1.trans ih2

/-- C5: `merge_candidates` is invariant under permutation of its input
candidate list: for every list of candidates and every permutation of it,
`merge_candidates` returns the same result on both. -/
theorem merge_candidates_perm (ctx : EvalCtxt) (l l' : List Candidate)
    (h : l.Perm l') : merge_candidates ctx l = merge_candidates ctx l' := by
  simp only [merge_candidates, flounder]
  rw [try_merge_responses_perm (h.map (fun c => c.result)),
    try_merge_responses_perm
      ((h.filter (fun c => c.source.is_param_env_or_alias_bound)).map (fun c => c.result))]

/-- Witness for C5: two conflicting candidates merged in both orders give
the same result. -/
theorem merge_candidates_perm_witness :
    merge_candidates (sample_ctx .normal)
        [{ source := .impl 0, result := { certainty := .yes, constraints := [] } },
         { source := .impl 1, result := { certainty := .maybe .ambiguity, constraints := [] } }] =
      merge_candidates (sample_ctx .normal)
        [{ source := .impl 1, result := { certainty := .maybe .ambiguity, constraints := [] } },
         { source := .impl 0, result := { certainty := .yes, constraints := [] } }] :=
  merge_candidates_perm (sample_ctx .normal) _ _
    (List.Perm.swap
      ({ source := .impl 1, result := { certainty := .maybe .ambiguity, constraints := [] } } :
        Candidate)
      ({ source := .impl 0, result := { certainty := .yes, constraints := [] } } : Candidate)
      [])

/-- C1: in `Coherence` mode, whenever the complete unify-merge over all the
candidates' responses fails, `merge_candidates` never applies the
param-env-priority shortcut: it returns the ambiguous ("flounder") outcome,
never a single guessed response. -/
theorem merge_candidates_coherence_no_shortcut (ctx : EvalCtxt) (l : List Candidate)
    (hmode : ctx.solverMode = .coherence)
    (hfail : try_merge_responses (l.map (fun c => c.result)) = none) :
    merge_candidates ctx l =
      .ok { certainty := .maybe .ambiguity, constraints := [] } := by
  simp [merge_candidates, hfail, hmode, flounder]

/-- Witness for C1: two `Impl` candidates with incompatible certainties
under `Coherence` merge to the ambiguous outcome. -/
theorem merge_candidates_coherence_no_shortcut_witness :
    merge_candidates (sample_ctx .coherence)
        [{ source := .impl 0, result := { certainty := .yes, constraints := [] } },
         { source := .impl 1, result := { certainty := .maybe .overflow, constraints := [] } }] =
      .ok { certainty := .maybe .ambiguity, constraints := [] } :=
  merge_candidates_coherence_no_shortcut (sample_ctx .coherence) _ rfl (by decide)

/-- C2: in `Normal` mode, when the complete unify-merge over all candidates
fails, `merge_candidates` retries the merge restricted to exactly the
candidates whose source is `ParamEnv` or `AliasBound` and returns that
restricted merge's result if it succeeds; in particular, one `ParamEnv`
candidate beats one conflicting `Impl` candidate. -/
theorem merge_candidates_param_env_priority :
    (∀ (ctx : EvalCtxt) (l : List Candidate) (r : CanonicalResponse),
      ctx.solverMode = .normal →
      try_merge_responses (l.map (fun c => c.result)) = none →
      try_merge_responses
        ((l.filter (fun c => c.source.is_param_env_or_alias_bound)).map
          (fun c => c.result)) = some r →
      merge_candidates ctx l = .ok r) ∧
    (∀ (ctx : EvalCtxt) (i d : Nat) (r1 r2 : CanonicalResponse),
      ctx.solverMode = .normal → r1 ≠ r2 →
      merge_candidates ctx
        [{ source := .paramEnv i, result := r1 }, { source := .impl d, result := r2 }] =
        .ok r1) := by
  constructor
  · intro ctx l r hmode hfail hsub
    simp [merge_candidates, hfail, hmode, hsub]
  · intro ctx i d r1 r2 hmode hne
    have h21 : (decide (r2 = r1)) = false := decide_eq_false (fun hh => hne hh.symm)
    simp [merge_candidates, try_merge_responses, hmode, h21,
      CandidateSource.is_param_env_or_alias_bound]

/-- Witness for C2: a `ParamEnv` candidate's response wins over a
conflicting `Impl` candidate's response in `Normal` mode, both through the
general statement and the two-candidate instance. -/
theorem merge_candidates_param_env_priority_witness :
    merge_candidates (sample_ctx .normal)
        [{ source := .paramEnv 0, result := { certainty := .yes, constraints := [] } },
         { source := .impl 3, result := { certainty := .maybe .ambiguity, constraints := [] } }] =
        .ok { certainty := .yes, constraints := [] } ∧
    merge_candidates (sample_ctx .normal)
        [{ source := .paramEnv 1, result := { certainty := .yes, constraints := [2] } },
         { source := .impl 4, result := { certainty := .yes, constraints := [] } }] =
        .ok { certainty := .yes, constraints := [2] } :=
  ⟨merge_candidates_param_env_priority.1 (sample_ctx .normal) _ _ rfl (by decide) (by decide),
   merge_candidates_param_env_priority.2 (sample_ctx .normal) 1 4 _ _ rfl (by decide)⟩

/-- C4: for every goal whose subject type is an unresolved type variable,
`assemble_and_evaluate_candidates` returns exactly one candidate, with
source `BuiltinImpl` and certainty `Maybe(Ambiguity)`, and none of the
structural enumeration passes contribute. -/
theorem assemble_ty_var_single_ambiguous (ctx : EvalCtxt) (goal : Goal)
    (h : goal.selfTy = .infer .tyVar) :
    assemble_and_evaluate_candidates ctx goal =
      some [{ source := .builtinImpl,
              result := { certainty := .maybe .ambiguity, constraints := [] } }] := by
  unfold assemble_and_evaluate_candidates
  simp [h, Ty.is_ty_var, evaluate_added_goals_and_make_canonical_response]

/-- Witness for C4: a concrete type-variable goal. -/
theorem assemble_ty_var_single_ambiguous_witness :
    assemble_and_evaluate_candidates (sample_ctx .normal)
        { paramEnv := sample_env, traitDefId := 20, selfTy := .infer .tyVar } =
      some [{ source := .builtinImpl,
              result := { certainty := .maybe .ambiguity, constraints := [] } }] :=
  assemble_ty_var_single_ambiguous (sample_ctx .normal)
    { paramEnv := sample_env, traitDefId := 20, selfTy := .infer .tyVar } rfl

/-- C6: the global-uniqueness-unknowable pass contributes candidates only in
`Coherence` mode: in `Normal` mode it appends nothing; in `Coherence` mode
it appends exactly one `BuiltinImpl` candidate with certainty
`Maybe(Ambiguity)` when the overlap oracle reports the pairing unknowable,
and nothing when it is knowable. -/
theorem coherence_unknowable_only_in_coherence (ctx : EvalCtxt) (goal : Goal) :
    (ctx.solverMode = .normal →
      assemble_coherence_unknowable_candidates ctx goal = some []) ∧
    (ctx.solverMode = .coherence →
      ctx.world.traitRefKnowable goal.traitDefId goal.selfTy = false →
      assemble_coherence_unknowable_candidates ctx goal =
        some [{ source := .builtinImpl,
                result := { certainty := .maybe .ambiguity, constraints := [] } }]) ∧
    (ctx.solverMode = .coherence →
      ctx.world.traitRefKnowable goal.traitDefId goal.selfTy = true →
      assemble_coherence_unknowable_candidates ctx goal = some []) := by
  refine ⟨fun hmode => ?_, fun hmode hk => ?_, fun hmode hk => ?_⟩
  · simp [assemble_coherence_unknowable_candidates, hmode]
  · simp [assemble_coherence_unknowable_candidates, hmode, hk,
      evaluate_added_goals_and_make_canonical_response]
  · simp [assemble_coherence_unknowable_candidates, hmode, hk]

/-- Witness for C6: the three branches at concrete inputs. -/
theorem coherence_unknowable_only_in_coherence_witness :
    assemble_coherence_unknowable_candidates (sample_ctx .normal)
        { paramEnv := sample_env, traitDefId := 20, selfTy := .bool } = some [] ∧
    assemble_coherence_unknowable_candidates
        { sample_ctx .coherence with
            world := { sample_world with traitRefKnowable := fun _ _ => false } }
        { paramEnv := sample_env, traitDefId := 20, selfTy := .bool } =
      some [{ source := .builtinImpl,
              result := { certainty := .maybe .ambiguity, constraints := [] } }] ∧
    assemble_coherence_unknowable_candidates (sample_ctx .coherence)
        { paramEnv := sample_env, traitDefId := 20, selfTy := .bool } = some [] :=
  ⟨(coherence_unknowable_only_in_coherence (sample_ctx .normal)
      { paramEnv := sample_env, traitDefId := 20, selfTy := .bool }).1 rfl,
   (coherence_unknowable_only_in_coherence
      { sample_ctx .coherence with
          world := { sample_world with traitRefKnowable := fun _ _ => false } }
      { paramEnv := sample_env, traitDefId := 20, selfTy := .bool }).2.1 rfl rfl,
   (coherence_unknowable_only_in_coherence (sample_ctx .coherence)
      { paramEnv := sample_env, traitDefId := 20, selfTy := .bool }).2.2 rfl rfl⟩

/-- C9: when validating an alias bound whose subject is an opaque alias, the
validation succeeds with certainty `Yes` if the assumption context's reveal
mode is user-facing, and reports `NoSolution` if the reveal mode is
fully-revealing. -/
theorem validate_opaq_reveal_mode (ctx : EvalCtxt) (goal : Goal)
    (defId traitDefId : Nat) (traitSelfTy : Ty)
    (h : goal.selfTy = .alias .opaq defId traitDefId traitSelfTy) :
    (goal.paramEnv.reveal = .userFacing →
      validate_alias_bound_self_from_param_env ctx goal =
        some (.ok { certainty := .yes, constraints := [] })) ∧
    (goal.paramEnv.reveal = .all →
      validate_alias_bound_self_from_param_env ctx goal = some .noSolution) := by
  obtain ⟨env, tid, sty⟩ := goal
  have h' : sty = Ty.alias .opaq defId traitDefId traitSelfTy := h
  subst h'
  constructor <;> intro hr <;> simp at hr <;>
    simp [validate_alias_bound_self_from_param_env, hr,
      evaluate_added_goals_and_make_canonical_response]

/-- Witness for C9: both reveal modes on a concrete opaque-alias goal. -/
theorem validate_opaq_reveal_mode_witness :
    validate_alias_bound_self_from_param_env (sample_ctx .normal)
        { paramEnv := { callerBounds := [], reveal := .userFacing }, traitDefId := 20,
          selfTy := .alias .opaq 1 2 .bool } =
      some (.ok { certainty := .yes, constraints := [] }) ∧
    validate_alias_bound_self_from_param_env (sample_ctx .normal)
        { paramEnv := { callerBounds := [], reveal := .all }, traitDefId := 20,
          selfTy := .alias .opaq 1 2 .bool } = some .noSolution :=
  ⟨(validate_opaq_reveal_mode (sample_ctx .normal)
      { paramEnv := { callerBounds := [], reveal := .userFacing }, traitDefId := 20,
        selfTy := .alias .opaq 1 2 .bool } 1 2 .bool rfl).1 rfl,
   (validate_opaq_reveal_mode (sample_ctx .normal)
      { paramEnv := { callerBounds := [], reveal := .all }, traitDefId := 20,
        selfTy := .alias .opaq 1 2 .bool } 1 2 .bool rfl).2 rfl⟩

/-- C10: when validating an alias bound for a projection-alias subject whose
owning trait reference's self type is an unresolved type variable,
`validate_alias_bound_self_from_param_env` returns certainty
`Maybe(Ambiguity)` immediately, without assembling or merging any
validation sub-candidates. -/
theorem validate_projection_ty_var_ambiguous (ctx : EvalCtxt) (goal : Goal)
    (defId traitDefId : Nat) (traitSelfTy : Ty)
    (h : goal.selfTy = .alias .projection defId traitDefId traitSelfTy)
    (hv : traitSelfTy.is_ty_var = true) :
    validate_alias_bound_self_from_param_env ctx goal =
      some (.ok { certainty := .maybe .ambiguity, constraints := [] }) := by
  obtain ⟨env, tid, sty⟩ := goal
  have h' : sty = Ty.alias .projection defId traitDefId traitSelfTy := h
  subst h'
  simp only [validate_alias_bound_self_from_param_env]
  simp [hv, evaluate_added_goals_and_make_canonical_response]

/-- Witness for C10: a concrete projection alias over a type variable. -/
theorem validate_projection_ty_var_ambiguous_witness :
    validate_alias_bound_self_from_param_env (sample_ctx .normal)
        { paramEnv := sample_env, traitDefId := 20,
          selfTy := .alias .projection 1 2 (.infer .tyVar) } =
      some (.ok { certainty := .maybe .ambiguity, constraints := [] }) :=
  validate_projection_ty_var_ambiguous (sample_ctx .normal)
    { paramEnv := sample_env, traitDefId := 20,
      selfTy := .alias .projection 1 2 (.infer .tyVar) } 1 2 (.infer .tyVar) rfl rfl

/-- C8: the alias-bound validation sub-proof for a projection-alias subject
assembles candidates from exactly three sources — param-env enumeration,
alias-bound enumeration, and the defaulted-builtin allow-list — and reduces
them via the merge engine; and the allow-list admits only pointee-metadata
and discriminant-kind, so for every other capability it contributes
nothing. -/
theorem validate_projection_three_sources (ctx : EvalCtxt) (goal : Goal)
    (defId traitDefId : Nat) (traitSelfTy : Ty)
    (h : goal.selfTy = .alias .projection defId traitDefId traitSelfTy)
    (hv : traitSelfTy.is_ty_var = false) :
    (∀ alias_bound_candidates,
      assemble_alias_bound_candidates ctx
          { paramEnv := goal.paramEnv, traitDefId := traitDefId, selfTy := traitSelfTy } =
        some alias_bound_candidates →
      validate_alias_bound_self_from_param_env ctx goal =
        some (merge_candidates ctx
          (assemble_param_env_candidates ctx
              { paramEnv := goal.paramEnv, traitDefId := traitDefId, selfTy := traitSelfTy } ++
            alias_bound_candidates ++
            assemble_alias_bound_candidates_for_builtin_impl_default_items ctx
              { paramEnv := goal.paramEnv, traitDefId := traitDefId,
                selfTy := traitSelfTy }))) ∧
    (∀ trait_goal : Goal,
      ctx.world.langItems.pointee ≠ some trait_goal.traitDefId →
      ctx.world.langItems.discriminantKind ≠ some trait_goal.traitDefId →
      assemble_alias_bound_candidates_for_builtin_impl_default_items ctx trait_goal = []) := by
  constructor
  · intro alias_bound_candidates hab
    obtain ⟨env, tid, sty⟩ := goal
    have h' : sty = Ty.alias .projection defId traitDefId traitSelfTy := h
    subst h'
    simp only [validate_alias_bound_self_from_param_env]
    simp only [Goal.paramEnv] at hab ⊢
    rw [hv]
    simp only [Bool.false_eq_true, if_false, hab, List.append_assoc]
  · intro trait_goal hp hd
    simp [assemble_alias_bound_candidates_for_builtin_impl_default_items, hp, hd]

/-- Witness for C8: a concrete projection-alias goal over a type parameter
with no bounds, and a capability outside the allow-list. -/
theorem validate_projection_three_sources_witness :
    validate_alias_bound_self_from_param_env (sample_ctx .normal)
        { paramEnv := sample_env, traitDefId := 20,
          selfTy := .alias .projection 1 2 (.param 0) } =
      some (merge_candidates (sample_ctx .normal)
        (assemble_param_env_candidates (sample_ctx .normal)
            { paramEnv := sample_env, traitDefId := 2, selfTy := .param 0 } ++
          [] ++
          assemble_alias_bound_candidates_for_builtin_impl_default_items (sample_ctx .normal)
            { paramEnv := sample_env, traitDefId := 2, selfTy := .param 0 })) ∧
    assemble_alias_bound_candidates_for_builtin_impl_default_items (sample_ctx .normal)
        { paramEnv := sample_env, traitDefId := 20, selfTy := .param 0 } = [] :=
  ⟨(validate_projection_three_sources (sample_ctx .normal)
      { paramEnv := sample_env, traitDefId := 20,
        selfTy := .alias .projection 1 2 (.param 0) } 1 2 (.param 0) rfl rfl).1 []
     (by simp [assemble_alias_bound_candidates]),
   (validate_projection_three_sources (sample_ctx .normal)
      { paramEnv := sample_env, traitDefId := 20,
        selfTy := .alias .projection 1 2 (.param 0) } 1 2 (.param 0) rfl rfl).2
     { paramEnv := sample_env, traitDefId := 20, selfTy := .param 0 }
     (by decide) (by decide)⟩

/-- Every candidate produced by the alias-bound enumeration loop is tagged
`AliasBound`. -/
theorem assemble_alias_bound_candidates_loop_sources (ctx : EvalCtxt) (goal : Goal) :
    ∀ (assumptions : List Predicate) (cs : List Candidate),
      assemble_alias_bound_candidates_loop ctx goal assumptions = some cs →
      ∀ c ∈ cs, c.source = .aliasBound := by
  intro assumptions
  induction assumptions with
  | nil =>
    intro cs h
    rw [assemble_alias_bound_candidates_loop] at h
    simp only [Option.some.injEq] at h
    subst h
    simp
  | cons a rest ih =>
    intro cs h
    rw [assemble_alias_bound_candidates_loop] at h
    cases a with
    | otherPred =>
      simp only [Predicate.as_clause] at h
      exact ih cs h
    | clause id =>
      simp only [Predicate.as_clause] at h
      cases hc : consider_alias_bound_candidate ctx goal id with
      | none => simp [hc] at h
      | some q =>
        cases q with
        | noSolution =>
          rw [hc] at h
          exact ih cs h
        | ok result =>
          rw [hc] at h
          simp only [Option.map_eq_some'] at h
          obtain ⟨cs', hcs', rfl⟩ := h
          intro c hmem
          rcases List.mem_cons.mp hmem with rfl | hmem'
          · rfl
          · exact ih cs' hcs' c hmem'

/-- C7: the alias-bound enumeration pass contributes candidates only when
the subject type is a projection or opaque alias (zero candidates for every
other admissible subject type, including inherent associated types and weak
type aliases); it contributes zero candidates when the referenced
associated item has zero declared bounds; and every candidate it does
contribute is tagged `AliasBound`. -/
theorem alias_bound_guard_and_tags (ctx : EvalCtxt) (goal : Goal) :
    (goal.selfTy.is_projection_or_opaq_alias = false →
      goal.selfTy.is_unexpected_assembly_self_ty = false →
      assemble_alias_bound_candidates ctx goal = some []) ∧
    (∀ kind defId traitDefId traitSelfTy,
      goal.selfTy = .alias kind defId traitDefId traitSelfTy →
      ctx.world.itemBounds defId traitSelfTy = [] →
      assemble_alias_bound_candidates ctx goal = some []) ∧
    (∀ cs, assemble_alias_bound_candidates ctx goal = some cs →
      ∀ c ∈ cs, c.source = .aliasBound) := by
  obtain ⟨env, tid, sty⟩ := goal
  refine ⟨fun h1 h2 => ?_, fun kind defId traitDefId traitSelfTy h hb => ?_,
    fun cs h => ?_⟩
  · cases sty <;>
      first
        | (simp [assemble_alias_bound_candidates]; done)
        | (simp_all [assemble_alias_bound_candidates, Ty.is_projection_or_opaq_alias,
             Ty.is_unexpected_assembly_self_ty]
           done)
        | (rename_i k d td ts
           cases k <;>
             simp_all [assemble_alias_bound_candidates, Ty.is_projection_or_opaq_alias,
               Ty.is_unexpected_assembly_self_ty])
        | (rename_i k
           cases k <;>
             simp_all [assemble_alias_bound_candidates, Ty.is_projection_or_opaq_alias,
               Ty.is_unexpected_assembly_self_ty])
  · have h' : sty = Ty.alias kind defId traitDefId traitSelfTy := h
    subst h'
    cases kind <;>
      simp [assemble_alias_bound_candidates, hb, assemble_alias_bound_candidates_loop]
  · rw [assemble_alias_bound_candidates] at h
    split at h <;>
      first
        | (exact assemble_alias_bound_candidates_loop_sources _ _ _ cs h)
        | (simp only [Option.some.injEq] at h
           subst h
           intro c hc
           simp at hc)
        | (simp at h)

/-- Witness for C7: an inherent-associated-type subject contributes nothing,
a projection whose associated item has zero bounds contributes nothing, and
a contributed candidate carries the `AliasBound` tag. -/
theorem alias_bound_guard_and_tags_witness :
    assemble_alias_bound_candidates (sample_ctx .normal)
        { paramEnv := sample_env, traitDefId := 20,
          selfTy := .alias .inherent 1 2 .bool } = some [] ∧
    assemble_alias_bound_candidates (sample_ctx .normal)
        { paramEnv := sample_env, traitDefId := 20,
          selfTy := .alias .projection 1 2 (.param 0) } = some [] ∧
    ({ source := .aliasBound,
       result := { certainty := .maybe .ambiguity, constraints := [] } } :
        Candidate).source = .aliasBound :=
  ⟨(alias_bound_guard_and_tags (sample_ctx .normal)
      { paramEnv := sample_env, traitDefId := 20,
        selfTy := .alias .inherent 1 2 .bool }).1 rfl rfl,
   (alias_bound_guard_and_tags (sample_ctx .normal)
      { paramEnv := sample_env, traitDefId := 20,
        selfTy := .alias .projection 1 2 (.param 0) }).2.1 .projection 1 2 (.param 0) rfl rfl,
   (alias_bound_guard_and_tags
      { sample_ctx .normal with world := sample_world_matching }
      { paramEnv := sample_env, traitDefId := 20,
        selfTy := .alias .projection 1 2 (.param 0) }).2.2
     [{ source := .aliasBound,
        result := { certainty := .maybe .ambiguity, constraints := [] } }]
     (by simp [assemble_alias_bound_candidates, assemble_alias_bound_candidates_loop,
       consider_alias_bound_candidate, probe_and_match_goal_against_assumption,
       validate_alias_bound_self_from_param_env, assemble_param_env_candidates,
       assemble_alias_bound_candidates_for_builtin_impl_default_items, merge_candidates,
       try_merge_responses, flounder, consider_implied_clause,
       evaluate_added_goals_and_make_canonical_response, Predicate.as_clause, Ty.is_ty_var,
       sample_ctx, sample_world_matching, sample_world, sample_env, sample_lang_items])
     { source := .aliasBound,
       result := { certainty := .maybe .ambiguity, constraints := [] } }
     (by simp)⟩

/-- If the fuel-indexed normalization pass agrees with the depth-bounded
one at a given fuel, so does the fuel-indexed orchestrator. -/
theorem assemble_and_evaluate_candidates_fuel_step (fuel : Nat) (ctx : EvalCtxt)
    (goal : Goal)
    (hnorm : assemble_candidates_after_normalizing_self_ty_fuel fuel ctx goal =
      some (assemble_candidates_after_normalizing_self_ty ctx goal)) :
    assemble_and_evaluate_candidates_fuel fuel ctx goal =
      some (assemble_and_evaluate_candidates ctx goal) := by
  unfold assemble_and_evaluate_candidates_fuel assemble_and_evaluate_candidates
  rw [hnorm]
  cases hv : goal.selfTy.is_ty_var
  · simp only [hv, Bool.false_eq_true, if_false]
    cases assemble_candidates_after_normalizing_self_ty ctx goal
    · rfl
    · cases assemble_alias_bound_candidates ctx goal
      · rfl
      · cases assemble_object_bound_candidates ctx goal
        · rfl
        · cases assemble_coherence_unknowable_candidates ctx goal
          · rfl
          · rfl
  · simp [hv, evaluate_added_goals_and_make_canonical_response]

/-- The fuel-indexed assembly agrees with the depth-bounded assembly
whenever the fuel covers the remaining depth budget: recursive assembly
never needs more re-entrant calls than the recursion limit allows. -/
theorem assemble_fuel_agrees (fuel : Nat) :
    ∀ (ctx : EvalCtxt) (goal : Goal), ctx.limit < ctx.depth + fuel →
      assemble_candidates_after_normalizing_self_ty_fuel fuel ctx goal =
        some (assemble_candidates_after_normalizing_self_ty ctx goal) ∧
      assemble_and_evaluate_candidates_fuel fuel ctx goal =
        some (assemble_and_evaluate_candidates ctx goal) := by
  induction fuel with
  | zero =>
    intro ctx goal h
    have hle : ctx.limit ≤ ctx.depth := by omega
    have hnorm : assemble_candidates_after_normalizing_self_ty_fuel 0 ctx goal =
        some (assemble_candidates_after_normalizing_self_ty ctx goal) := by
      obtain ⟨env, tid, sty⟩ := goal
      simp only [assemble_candidates_after_normalizing_self_ty_fuel]
      unfold assemble_candidates_after_normalizing_self_ty
      cases sty <;>
        simp [hle, overflow_probe_candidates,
          evaluate_added_goals_and_make_canonical_response]
    exact ⟨hnorm, assemble_and_evaluate_candidates_fuel_step 0 ctx goal hnorm⟩
  | succ fuel ih =>
    intro ctx goal h
    have hnorm : assemble_candidates_after_normalizing_self_ty_fuel (fuel + 1) ctx goal =
        some (assemble_candidates_after_normalizing_self_ty ctx goal) := by
      obtain ⟨env, tid, sty⟩ := goal
      simp only [assemble_candidates_after_normalizing_self_ty_fuel]
      unfold assemble_candidates_after_normalizing_self_ty
      cases sty <;> try rfl
      rename_i k d td ts
      by_cases hle : ctx.limit ≤ ctx.depth
      · simp [hle, overflow_probe_candidates,
          evaluate_added_goals_and_make_canonical_response]
      · simp only [hle, if_false]
        cases hn : ctx.world.normalizeSelfTy
            { paramEnv := env, traitDefId := tid, selfTy := Ty.alias k d td ts }
        · simp [hn]
        · simp only [hn]
          exact (ih { ctx with depth := ctx.depth + 1 } _ (by simp; omega)).2
    exact ⟨hnorm, assemble_and_evaluate_candidates_fuel_step (fuel + 1) ctx goal hnorm⟩

/-- C3: the self-type normalization pass is depth-bounded: once the
recursion depth has reached the configured limit it contributes exactly one
`BuiltinImpl` candidate with certainty `Maybe(Overflow)` and performs no
further recursive assembly; consequently resolution of any goal (including
self-referential alias chains) needs no more re-entrant assembly calls than
the recursion limit allows — a fuel budget covering the remaining depth is
always sufficient. -/
theorem normalization_depth_bounded :
    (∀ (ctx : EvalCtxt) (goal : Goal) (kind : AliasKind) (defId traitDefId : Nat)
        (traitSelfTy : Ty),
      goal.selfTy = .alias kind defId traitDefId traitSelfTy →
      ctx.limit ≤ ctx.depth →
      assemble_candidates_after_normalizing_self_ty ctx goal =
        some [{ source := .builtinImpl,
                result := { certainty := .maybe .overflow, constraints := [] } }] ∧
      assemble_candidates_after_normalizing_self_ty_fuel 0 ctx goal =
        some (some [{ source := .builtinImpl,
                      result := { certainty := .maybe .overflow, constraints := [] } }])) ∧
    (∀ (fuel : Nat) (ctx : EvalCtxt) (goal : Goal), ctx.limit < ctx.depth + fuel →
      assemble_and_evaluate_candidates_fuel fuel ctx goal =
        some (assemble_and_evaluate_candidates ctx goal)) := by
  constructor
  · intro ctx goal kind defId traitDefId traitSelfTy h hle
    obtain ⟨env, tid, sty⟩ := goal
    have h' : sty = Ty.alias kind defId traitDefId traitSelfTy := h
    subst h'
    constructor
    · unfold assemble_candidates_after_normalizing_self_ty
      simp [hle, overflow_probe_candidates,
        evaluate_added_goals_and_make_canonical_response]
    · simp only [assemble_candidates_after_normalizing_self_ty_fuel]
      simp [hle, overflow_probe_candidates,
        evaluate_added_goals_and_make_canonical_response]
  · intro fuel ctx goal h
    exact (assemble_fuel_agrees fuel ctx goal h).2

/-- Witness for C3: at the depth limit a concrete alias goal yields exactly
the overflow candidate, and one unit of fuel suffices for a context one step
below its limit. -/
theorem normalization_depth_bounded_witness :
    assemble_candidates_after_normalizing_self_ty
        { sample_ctx .normal with depth := 4, limit := 4 }
        { paramEnv := sample_env, traitDefId := 20,
          selfTy := .alias .projection 1 2 (.param 0) } =
      some [{ source := .builtinImpl,
              result := { certainty := .maybe .overflow, constraints := [] } }] ∧
    assemble_and_evaluate_candidates_fuel 1
        { sample_ctx .normal with depth := 4, limit := 4 }
        { paramEnv := sample_env, traitDefId := 20,
          selfTy := .alias .projection 1 2 (.param 0) } =
      some (assemble_and_evaluate_candidates
        { sample_ctx .normal with depth := 4, limit := 4 }
        { paramEnv := sample_env, traitDefId := 20,
          selfTy := .alias .projection 1 2 (.param 0) }) :=
  ⟨(normalization_depth_bounded.1 { sample_ctx .normal with depth := 4, limit := 4 }
      { paramEnv := sample_env, traitDefId := 20,
        selfTy := .alias .projection 1 2 (.param 0) } .projection 1 2 (.param 0) rfl
      (by decide)).1,
   normalization_depth_bounded.2 1 { sample_ctx .normal with depth := 4, limit := 4 }
     { paramEnv := sample_env, traitDefId := 20,
       selfTy := .alias .projection 1 2 (.param 0) } (by decide)⟩

end SolveAssembly
